import Mathlib

/-!
Shallow embedding of `src/analytics.py` from hh-analyzer-bot: the analytics
engine that turns a batch of raw job-listing records into salary statistics,
categorical counts and skill-keyword counts.

Modelling conventions:
* Python numbers are modelled by `ℚ` (exact arithmetic; the claims under
  verification are structural, not about float rounding).
* A Python value that may be absent is an `Option`.  Python truthiness
  (`if x:`) is modelled explicitly: `None`, `0`, `""` and the empty dict are
  falsy.  A falsy dict takes the same branch as an absent field in the
  source, so the inductives below fold the empty dict into the `absent`
  constructor; the `obj` constructors stand for truthy (non-empty) dicts.
* `collections.Counter` is an association list in key-insertion (first-seen)
  order; incrementing an existing key keeps its position, a new key is
  appended — exactly CPython's dict-ordering behaviour.  `most_common` is a
  stable sort by descending count (CPython documents `most_common(n)` as
  `sorted(items, key=count, reverse=True)[:n]`, which is stable).
* `int(...)` truncates toward zero; `truncQ` below does the same.
* `str.lower`/`str.upper` are modelled per-character over the char list
  (ASCII, `Char.toLower`/`Char.toUpper`).  The single non-ASCII vocabulary
  entry "английский" is already lower-case; its upper-cased output label is
  the only place the model can deviate from CPython, and no theorem below
  touches that label.
-/

namespace HHAnalyzer

/-- A `salary` object: optional `from` / `to` bounds and an optional
currency code (`salary.get("currency", "RUR")` defaults it at use sites). -/
structure Salary where
  from_val : Option ℚ := none
  to_val : Option ℚ := none
  currency : Option String := none

/-- The `experience` field: absent, a truthy dict with an optional `id`
entry, or a bare string. -/
inductive ExpData where
  | absent
  | obj (id : Option String)
  | str (s : String)

/-- The `employer` field: absent, a truthy dict with an optional `name`
entry, or a bare string. -/
inductive EmployerData where
  | absent
  | obj (name : Option String)
  | str (s : String)

/-- The `employment` field: absent, a truthy dict with optional `id` and
`name` entries, or a bare string. -/
inductive EmploymentData where
  | absent
  | obj (id : Option String) (name : Option String)
  | str (s : String)

/-- The `schedule` field: absent, a truthy dict with an optional `name`
entry, or a bare string. -/
inductive ScheduleData where
  | absent
  | obj (name : Option String)
  | str (s : String)

/-- The `snippet` object with its two optional free-text fields. -/
structure Snippet where
  requirement : Option String := none
  responsibility : Option String := none

/-- One raw listing record, restricted to the fields the analytics read. -/
structure Listing where
  salary : Option Salary := none
  experience : ExpData := .absent
  employer : EmployerData := .absent
  employment : EmploymentData := .absent
  schedule : ScheduleData := .absent
  snippet : Option Snippet := none

/-! ### Counter and most_common -/

/-- `Counter[k] += 1` on an insertion-ordered association list: increment an
existing key in place, append a missing key with count 1. -/
def bump : List (String × ℕ) → String → List (String × ℕ)
  | [], k => [(k, 1)]
  | (k', n) :: rest, k =>
      if k' = k then (k', n + 1) :: rest else (k', n) :: bump rest k

/-- Build a Counter from a sequence of labels (in input order). -/
def counterOf (labels : List String) : List (String × ℕ) :=
  labels.foldl bump []

/-- Insert an entry into a count-descending list, before the first entry of
equal-or-smaller count (so the element being inserted — the earlier one in
the original order — precedes entries of equal count). -/
def insertDesc (x : String × ℕ) : List (String × ℕ) → List (String × ℕ)
  | [] => [x]
  | y :: ys => if y.2 ≤ x.2 then x :: y :: ys else y :: insertDesc x ys

/-- `Counter.most_common()`: stable sort by descending count. -/
def most_common : List (String × ℕ) → List (String × ℕ)
  | [] => []
  | x :: xs => insertDesc x (most_common xs)

/-- Sum of all counts of a counter / histogram. -/
def distTotal (l : List (String × ℕ)) : ℕ :=
  (l.map Prod.snd).sum

/-- The sequence of distinct labels in first-encountered order. -/
def firstSeen (labels : List String) : List String :=
  labels.foldl (fun ks k => if k ∈ ks then ks else ks ++ [k]) []

/-! ### Numeric helpers (Python semantics) -/

/-- Python truthiness of an optional number: `None` and `0` are falsy. -/
def truthy : Option ℚ → Bool
  | none => false
  | some x => decide (x ≠ 0)

/-- Python `int(q)`: truncation toward zero.  Both branches divide
non-negative integers, so the result does not depend on the rounding
convention of integer division. -/
def truncQ (q : ℚ) : ℤ :=
  if q < 0 then -((-q).num / ((-q).den : ℤ)) else q.num / (q.den : ℤ)

/-- `min(list)` for a non-empty list (0 is never used: callers guard). -/
def listMin : List ℚ → ℚ
  | [] => 0
  | x :: xs => xs.foldl min x

/-- `max(list)` for a non-empty list. -/
def listMax : List ℚ → ℚ
  | [] => 0
  | x :: xs => xs.foldl max x

/-- `np.mean(list)`. -/
def listMean (l : List ℚ) : ℚ :=
  l.sum / (l.length : ℚ)

/-- Ascending insertion used by `sortQ`. -/
def insertAsc (x : ℚ) : List ℚ → List ℚ
  | [] => [x]
  | y :: ys => if x ≤ y then x :: y :: ys else y :: insertAsc x ys

/-- Ascending sort of a list of rationals. -/
def sortQ : List ℚ → List ℚ
  | [] => []
  | x :: xs => insertAsc x (sortQ xs)

/-- `np.median(list)`: middle element of the sorted list, or the average of
the two middle elements for an even-sized list. -/
def medianQ (l : List ℚ) : ℚ :=
  let s := sortQ l
  if s.length % 2 = 1 then s.getD (s.length / 2) 0
  else (s.getD (s.length / 2 - 1) 0 + s.getD (s.length / 2) 0) / 2

/-! ### Salary analysis (`analyze_salaries`, `analyze_salary_by_experience`) -/

/-- `from_val * rate if from_val else None`: a `None` or zero bound stays
absent, a non-zero bound is multiplied by the fixed rate. -/
def convBound (rate : ℚ) : Option ℚ → Option ℚ
  | none => none
  | some x => if x = 0 then none else some (x * rate)

/-- Currency conversion of both bounds: USD × 90, EUR × 100, anything else
(including the baseline "RUR" and unrecognized codes) passes through. -/
def convert (currency : String) (f t : Option ℚ) : Option ℚ × Option ℚ :=
  if currency = "USD" then (convBound 90 f, convBound 90 t)
  else if currency = "EUR" then (convBound 100 f, convBound 100 t)
  else (f, t)

/-- The converted bounds of a salary object, with the currency defaulted to
"RUR" when absent. -/
def convertedBounds (s : Salary) : Option ℚ × Option ℚ :=
  convert (s.currency.getD "RUR") s.from_val s.to_val

/-- Collapse a converted range to one representative value:
`if from_val and to_val: (from+to)/2 elif from_val: from elif to_val: to
else: continue`. -/
def collapse (f t : Option ℚ) : Option ℚ :=
  if truthy f && truthy t then some ((f.getD 0 + t.getD 0) / 2)
  else if truthy f then f
  else if truthy t then t
  else none

/-- The representative salary value one salary object contributes, if any. -/
def reprOfSalary (s : Salary) : Option ℚ :=
  collapse (convertedBounds s).1 (convertedBounds s).2

/-- The value appended to `salary_from_list` (`if from_val: append`). -/
def fromContribution (s : Salary) : Option ℚ :=
  if truthy (convertedBounds s).1 then (convertedBounds s).1 else none

/-- The value appended to `salary_to_list` (`if to_val: append`). -/
def toContribution (s : Salary) : Option ℚ :=
  if truthy (convertedBounds s).2 then (convertedBounds s).2 else none

/-- The overall sample of representative values, in input order. -/
def salariesOf (vs : List Listing) : List ℚ :=
  vs.filterMap (fun v => v.salary.bind reprOfSalary)

/-- All converted `from` bounds actually present, in input order. -/
def fromValues (vs : List Listing) : List ℚ :=
  vs.filterMap (fun v => v.salary.bind fromContribution)

/-- All converted `to` bounds actually present, in input order. -/
def toValues (vs : List Listing) : List ℚ :=
  vs.filterMap (fun v => v.salary.bind toContribution)

/-- Original (pre-conversion) currency codes of all listings with a truthy
salary, with the "RUR" default applied, in input order. -/
def currencyCounter (vs : List Listing) : List (String × ℕ) :=
  counterOf (vs.filterMap (fun v => v.salary.map (fun s => s.currency.getD "RUR")))

/-- The fixed histogram bucket labels, in dict-declaration order. -/
def bucketLabels : List String :=
  ["до 100к", "100-150к", "150-200к", "200-250к", "250-300к", "300-400к", "400к+"]

/-- The if/elif chain assigning a representative value to its bucket. -/
def bucketLabel (s : ℚ) : String :=
  if s < 100000 then "до 100к"
  else if s < 150000 then "100-150к"
  else if s < 200000 then "150-200к"
  else if s < 250000 then "200-250к"
  else if s < 300000 then "250-300к"
  else if s < 400000 then "300-400к"
  else "400к+"

/-- `get_salary_distribution`: a dict pre-seeded with the seven buckets at
zero, incremented once per representative value. -/
def get_salary_distribution (salaries : List ℚ) : List (String × ℕ) :=
  salaries.foldl (fun d s => bump d (bucketLabel s)) (bucketLabels.map (fun b => (b, 0)))

/-- The bucket edges as (label, upper edge) pairs, ascending — used only to
state the spec's "first edge the value is strictly less than" rule. -/
def bucketEdges : List (String × ℚ) :=
  [("до 100к", 100000), ("100-150к", 150000), ("150-200к", 200000),
   ("200-250к", 250000), ("250-300к", 300000), ("300-400к", 400000)]

/-- The bucket-assignment rule as the spec words it: the first ascending
edge the value is strictly less than, else the open-ended top bucket. -/
def specBucket (s : ℚ) : String :=
  ((bucketEdges.find? (fun p => decide (s < p.2))).map Prod.fst).getD "400к+"

/-- The aggregate statistics record returned by `analyze_salaries`
(absent/`None` fields modelled with `Option`). -/
structure SalaryStats where
  count : ℕ
  min : ℤ
  max : ℤ
  avg : ℤ
  median : ℤ
  from_avg : Option ℤ
  to_avg : Option ℤ
  distribution : List (String × ℕ)
  currencies : List (String × ℕ)

/-- `analyze_salaries`: `none` models the `{"available": False, ...}`
result returned when no listing contributed a representative value. -/
def analyze_salaries (vs : List Listing) : Option SalaryStats :=
  if (salariesOf vs).isEmpty then none
  else some
    { count := (salariesOf vs).length
      min := truncQ (listMin (salariesOf vs))
      max := truncQ (listMax (salariesOf vs))
      avg := truncQ (listMean (salariesOf vs))
      median := truncQ (medianQ (salariesOf vs))
      from_avg := if (fromValues vs).isEmpty then none
                  else some (truncQ (listMean (fromValues vs)))
      to_avg := if (toValues vs).isEmpty then none
                else some (truncQ (listMean (toValues vs)))
      distribution := get_salary_distribution (salariesOf vs)
      currencies := (most_common (currencyCounter vs)).take 5 }

/-! ### Experience resolution -/

/-- Shared extraction of the raw experience code (lines 50-56 and 231-237
of the source are identical): dict → `get("id", "Не указано")`, truthy
string → itself, anything falsy/absent → "Не указано". -/
def expId : ExpData → String
  | .absent => "Не указано"
  | .obj i => i.getD "Не указано"
  | .str s => if s = "" then "Не указано" else s

/-- The fixed experience code → tier-label table (`exp_map`). -/
def exp_map (code : String) : Option String :=
  if code = "noExperience" then some "Без опыта"
  else if code = "between1And3" then some "1-3 года"
  else if code = "between3And6" then some "3-6 лет"
  else if code = "moreThan6" then some "6+ лет"
  else none

/-- Tier label used by `analyze_salary_by_experience` (line 58):
`exp_map.get(exp_id, "Не указано")` — unknown codes collapse to the
unspecified tier. -/
def tierLabelSalary (e : ExpData) : String :=
  (exp_map (expId e)).getD "Не указано"

/-- Label used by `analyze_experience` (line 238): `exp_map.get(exp, exp)`
— unknown codes pass through as their own label. -/
def tierLabelCategory (e : ExpData) : String :=
  (exp_map (expId e)).getD (expId e)

/-- The five fixed tier groups of `salary_by_exp`, in declaration order. -/
def tierOrder : List String :=
  ["Без опыта", "1-3 года", "3-6 лет", "6+ лет", "Не указано"]

/-- The representative-value sample collected for one tier, in input
order. -/
def tierSample (vs : List Listing) (tier : String) : List ℚ :=
  (vs.filter (fun v => tierLabelSalary v.experience == tier)).filterMap
    (fun v => v.salary.bind reprOfSalary)

/-- Per-tier aggregate statistics. -/
structure TierStats where
  count : ℕ
  min : ℤ
  max : ℤ
  avg : ℤ
  median : ℤ

/-- `analyze_salary_by_experience`: statistics for each tier whose sample
is non-empty, emitted in the fixed group order. -/
def analyze_salary_by_experience (vs : List Listing) : List (String × TierStats) :=
  tierOrder.filterMap (fun tier =>
    if (tierSample vs tier).isEmpty then none
    else some (tier,
      { count := (tierSample vs tier).length
        min := truncQ (listMin (tierSample vs tier))
        max := truncQ (listMax (tierSample vs tier))
        avg := truncQ (listMean (tierSample vs tier))
        median := truncQ (medianQ (tierSample vs tier)) }))

/-! ### Categorical aggregators -/

/-- Employer label: every listing gets one — an absent or falsy employer is
labelled "Не указано" (the source's final `else` branch). -/
def companyLabel : EmployerData → String
  | .absent => "Не указано"
  | .obj n => n.getD "Не указано"
  | .str s => if s = "" then "Не указано" else s

/-- The employer Counter, keys in first-seen order. -/
def companiesCounter (vs : List Listing) : List (String × ℕ) :=
  counterOf (vs.map (fun v => companyLabel v.employer))

/-- Result record of `analyze_companies`. -/
structure CompaniesResult where
  unique : ℕ
  top_20 : List (String × ℕ)

/-- `analyze_companies`: distinct-employer count and top 20 by count. -/
def analyze_companies (vs : List Listing) : CompaniesResult :=
  { unique := (companiesCounter vs).length
    top_20 := (most_common (companiesCounter vs)).take 20 }

/-- The experience Counter (category counts), keys in first-seen order. -/
def expCounter (vs : List Listing) : List (String × ℕ) :=
  counterOf (vs.map (fun v => tierLabelCategory v.experience))

/-- `analyze_experience`: all tiers ranked by count. -/
def analyze_experience (vs : List Listing) : List (String × ℕ) :=
  most_common (expCounter vs)

/-- The fixed employment code → label table (`emp_map`). -/
def emp_map (code : String) : Option String :=
  if code = "full" then some "Полная занятость"
  else if code = "part" then some "Частичная занятость"
  else if code = "project" then some "Проектная работа"
  else if code = "volunteer" then some "Волонтёрство"
  else if code = "probation" then some "Стажировка"
  else none

/-- Employment label, `none` when the listing is not counted at all (absent
or falsy field — the source has no final `else`): dict →
`emp_map.get(emp.get("id"), emp.get("name", "Не указано"))`, truthy
string → `emp_map.get(emp, emp)`. -/
def empLabel : EmploymentData → Option String
  | .absent => none
  | .obj i n =>
      some (match i with
        | some code => (emp_map code).getD (n.getD "Не указано")
        | none => n.getD "Не указано")
  | .str s => if s = "" then none else some ((emp_map s).getD s)

/-- The employment Counter, keys in first-seen order. -/
def empCounter (vs : List Listing) : List (String × ℕ) :=
  counterOf (vs.filterMap (fun v => empLabel v.employment))

/-- `analyze_employment`: counted labels ranked by count. -/
def analyze_employment (vs : List Listing) : List (String × ℕ) :=
  most_common (empCounter vs)

/-- Schedule label, `none` when the listing is not counted (absent or falsy
field): dict → `sched.get("name", "Не указано")`, truthy string → itself. -/
def schedLabel : ScheduleData → Option String
  | .absent => none
  | .obj n => some (n.getD "Не указано")
  | .str s => if s = "" then none else some s

/-- The schedule Counter, keys in first-seen order. -/
def schedCounter (vs : List Listing) : List (String × ℕ) :=
  counterOf (vs.filterMap (fun v => schedLabel v.schedule))

/-- `analyze_schedule`: counted labels ranked by count. -/
def analyze_schedule (vs : List Listing) : List (String × ℕ) :=
  most_common (schedCounter vs)

/-! ### Skill extraction -/

/-- The fixed skill vocabulary, copied verbatim from the source — note that
"mongodb", "postgresql" and "redis" each appear twice. -/
def tech_skills : List String :=
  ["python", "javascript", "typescript", "java", "c++", "c#", "go", "rust", "php", "ruby",
   "react", "vue", "angular", "node.js", "django", "flask", "fastapi", "spring", "laravel",
   "sql", "postgresql", "mysql", "mongodb", "redis", "elasticsearch", "kafka", "rabbitmq",
   "docker", "kubernetes", "aws", "azure", "gcp", "linux", "git", "ci/cd", "jenkins",
   "machine learning", "ml", "ai", "data science", "pytorch", "tensorflow", "pandas", "numpy",
   "rest api", "graphql", "microservices", "mongodb", "postgresql", "redis",
   "agile", "scrum", "kanban", "jira", "confluence",
   "english", "английский", "b2", "c1", "ielts"]

/-- Python `str.lower` (ASCII, per-character on the char list). -/
def pyLower (s : String) : String :=
  ⟨s.data.map Char.toLower⟩

/-- Python `str.upper` (ASCII, per-character on the char list). -/
def pyUpper (s : String) : String :=
  ⟨s.data.map Char.toUpper⟩

/-- Substring test on character lists (Python's `needle in hay`). -/
def containsList (needle : List Char) : List Char → Bool
  | [] => needle.isEmpty
  | c :: rest => needle.isPrefixOf (c :: rest) || containsList needle rest

/-- Substring test on strings. -/
def containsStr (hay needle : String) : Bool :=
  containsList needle.data hay.data

/-- The skill Counter: for each listing with a truthy snippet dict, build
the lower-cased `requirement + " " + responsibility` buffer and bump every
vocabulary entry (per occurrence in the vocabulary list) that occurs as a
substring, keyed by the entry upper-cased. -/
def skillCounter (vs : List Listing) : List (String × ℕ) :=
  vs.foldl (fun acc v =>
    match v.snippet with
    | none => acc
    | some sn =>
        let text := pyLower (sn.requirement.getD "") ++ " " ++
          pyLower (sn.responsibility.getD "")
        tech_skills.foldl (fun acc2 skill =>
          if containsStr text (pyLower skill) then bump acc2 (pyUpper skill)
          else acc2) acc) []

/-- Result record of `extract_skills`. -/
structure SkillsResult where
  top_20 : List (String × ℕ)
  total_found : ℕ

/-- `extract_skills`: top 20 skills by count plus distinct-skill count. -/
def extract_skills (vs : List Listing) : SkillsResult :=
  { top_20 := (most_common (skillCounter vs)).take 20
    total_found := (skillCounter vs).length }

/-! ### Report assembly (`analyze_vacancies`) -/

/-- The full statistics record assembled for a non-empty input. -/
structure VacancyStats where
  total : ℕ
  salary : Option SalaryStats
  salary_by_experience : List (String × TierStats)
  companies : CompaniesResult
  experience : List (String × ℕ)
  employment : List (String × ℕ)
  schedule : List (String × ℕ)
  skills : SkillsResult

/-- `analyze_vacancies` either returns the error dict or the statistics. -/
inductive AnalysisResult where
  | error (msg : String)
  | ok (stats : VacancyStats)

/-- The statistics dict built for a non-empty input (the unused
`pd.DataFrame(vacancies)` of the source has no observable effect and is
not modelled). -/
def mkStats (vs : List Listing) : VacancyStats :=
  { total := vs.length
    salary := analyze_salaries vs
    salary_by_experience := analyze_salary_by_experience vs
    companies := analyze_companies vs
    experience := analyze_experience vs
    employment := analyze_employment vs
    schedule := analyze_schedule vs
    skills := extract_skills vs }

/-- `analyze_vacancies`: the empty-input check is the only validation. -/
def analyze_vacancies (vs : List Listing) : AnalysisResult :=
  if vs.isEmpty then .error "Вакансии не найдены" else .ok (mkStats vs)

/-! ### Concrete listings used by witnesses and counterexamples -/

/-- A listing with every optional field absent. -/
def vBlank : Listing := {}

/-- `from=1000`, baseline currency. -/
def vRur1000 : Listing :=
  { salary := some { from_val := some 1000, currency := some "RUR" } }

/-- `from=1000`, USD — same amounts as `vRur1000`, only the code differs. -/
def vUsd1000 : Listing :=
  { salary := some { from_val := some 1000, currency := some "USD" } }

/-- `from=100000, to=200000`, baseline currency. -/
def vRange : Listing :=
  { salary := some { from_val := some 100000, to_val := some 200000,
                     currency := some "RUR" } }

/-- A salary object carrying neither bound. -/
def vNoBounds : Listing :=
  { salary := some { currency := some "RUR" } }

/-- A listing with an unknown bare-string experience code. -/
def vWeird : Listing := { experience := .str "weird" }

/-- A listing whose requirement text mentions "redis" exactly once. -/
def vRedis : Listing :=
  { snippet := some { requirement := some "redis" } }

/-- A listing whose requirement text mentions "python" exactly once. -/
def vPython : Listing :=
  { snippet := some { requirement := some "python" } }

/-- Placeholder statistics record used to destructure `Option` results in
closed witness statements. -/
def dummyStats : SalaryStats :=
  { count := 0, min := 0, max := 0, avg := 0, median := 0,
    from_avg := none, to_avg := none, distribution := [], currencies := [] }

/-- Whether a listing's employment field is counted at all by
`analyze_employment`. -/
def countedEmployment (e : EmploymentData) : Bool :=
  (empLabel e).isSome

/-- Whether a listing's schedule field is counted at all by
`analyze_schedule`. -/
def countedSchedule (e : ScheduleData) : Bool :=
  (schedLabel e).isSome

/-! ### Helper lemmas: Counter totals and keys -/

theorem distTotal_bump (l : List (String × ℕ)) (k : String) :
    distTotal (bump l k) = distTotal l + 1 := by
  induction l with
  | nil => simp [bump, distTotal]
  | cons y ys ih =>
      obtain ⟨k', n⟩ := y
      by_cases hk : k' = k
      · simp [bump, hk, distTotal]; omega
      · simp only [bump, if_neg hk, distTotal, List.map_cons, List.sum_cons]
        simp only [distTotal] at ih
        omega

theorem distTotal_foldl_bump (ls : List String) :
    ∀ acc : List (String × ℕ),
      distTotal (ls.foldl bump acc) = distTotal acc + ls.length := by
  induction ls with
  | nil => intro acc; simp
  | cons k ks ih =>
      intro acc
      simp only [List.foldl_cons, List.length_cons]
      rw [ih, distTotal_bump]
      omega

theorem distTotal_counterOf (ls : List String) :
    distTotal (counterOf ls) = ls.length := by
  simpa [counterOf, distTotal] using distTotal_foldl_bump ls []

theorem bump_keys (l : List (String × ℕ)) (k : String) :
    (bump l k).map Prod.fst =
      if k ∈ l.map Prod.fst then l.map Prod.fst else l.map Prod.fst ++ [k] := by
  induction l with
  | nil => simp [bump]
  | cons y ys ih =>
      obtain ⟨k', n⟩ := y
      by_cases hk : k' = k
      · subst hk
        simp [bump]
      · simp only [bump, if_neg hk, List.map_cons, ih, List.mem_cons]
        by_cases hmem : k ∈ ys.map Prod.fst
        · simp [hmem, Ne.symm hk]
        · simp [hmem, Ne.symm hk]

theorem foldl_bump_keys (ls : List String) :
    ∀ acc : List (String × ℕ),
      (ls.foldl bump acc).map Prod.fst =
        ls.foldl (fun ks k => if k ∈ ks then ks else ks ++ [k]) (acc.map Prod.fst) := by
  induction ls with
  | nil => intro acc; rfl
  | cons k ks ih =>
      intro acc
      simp only [List.foldl_cons]
      rw [ih, bump_keys]

theorem counterOf_keys (ls : List String) :
    (counterOf ls).map Prod.fst = firstSeen ls := by
  simpa [counterOf, firstSeen] using foldl_bump_keys ls []

/-! ### Helper lemmas: stable descending sort (`most_common`) -/

theorem mem_insertDesc {x z : String × ℕ} :
    ∀ {l : List (String × ℕ)}, z ∈ insertDesc x l → z = x ∨ z ∈ l := by
  intro l
  induction l with
  | nil =>
      intro h
      simp [insertDesc] at h
      exact Or.inl h
  | cons y ys ih =>
      intro h
      simp only [insertDesc] at h
      by_cases hc : y.2 ≤ x.2
      · rw [if_pos hc] at h
        rcases List.mem_cons.mp h with h1 | h2
        · exact Or.inl h1
        · exact Or.inr h2
      · rw [if_neg hc] at h
        rcases List.mem_cons.mp h with h1 | h2
        · exact Or.inr (List.mem_cons.mpr (Or.inl h1))
        · rcases ih h2 with h3 | h4
          · exact Or.inl h3
          · exact Or.inr (List.mem_cons.mpr (Or.inr h4))

theorem pairwise_insertDesc (x : String × ℕ) (l : List (String × ℕ))
    (h : l.Pairwise (fun a b => b.2 ≤ a.2)) :
    (insertDesc x l).Pairwise (fun a b => b.2 ≤ a.2) := by
  induction l with
  | nil => simp [insertDesc]
  | cons y ys ih =>
      rcases List.pairwise_cons.mp h with ⟨hy, hys⟩
      simp only [insertDesc]
      by_cases hc : y.2 ≤ x.2
      · rw [if_pos hc]
        refine List.pairwise_cons.mpr ⟨?_, h⟩
        intro z hz
        rcases List.mem_cons.mp hz with rfl | hz'
        · exact hc
        · exact le_trans (hy z hz') hc
      · rw [if_neg hc]
        refine List.pairwise_cons.mpr ⟨?_, ih hys⟩
        intro z hz
        rcases mem_insertDesc hz with rfl | hz'
        · exact le_of_lt (lt_of_not_le hc)
        · exact hy z hz'

theorem pairwise_most_common (l : List (String × ℕ)) :
    (most_common l).Pairwise (fun a b => b.2 ≤ a.2) := by
  induction l with
  | nil => simp [most_common]
  | cons x xs ih => exact pairwise_insertDesc x (most_common xs) ih

theorem filter_insertDesc (x : String × ℕ) (l : List (String × ℕ)) (n : ℕ) :
    (insertDesc x l).filter (fun e => e.2 == n) =
      if x.2 = n then x :: l.filter (fun e => e.2 == n)
      else l.filter (fun e => e.2 == n) := by
  induction l with
  | nil =>
      by_cases hx : x.2 = n <;> simp [insertDesc, List.filter_cons, hx]
  | cons y ys ih =>
      simp only [insertDesc]
      by_cases hc : y.2 ≤ x.2
      · rw [if_pos hc]
        by_cases hx : x.2 = n <;> simp [List.filter_cons, hx]
      · rw [if_neg hc]
        by_cases hx : x.2 = n
        · have hy : ¬ y.2 = n := by
            intro hyn
            exact hc (le_of_eq (hyn.trans hx.symm))
          simp [List.filter_cons, hx, hy, ih]
        · by_cases hy : y.2 = n <;> simp [List.filter_cons, hx, hy, ih]

theorem filter_most_common (l : List (String × ℕ)) (n : ℕ) :
    (most_common l).filter (fun e => e.2 == n) =
      l.filter (fun e => e.2 == n) := by
  induction l with
  | nil => rfl
  | cons x xs ih =>
      simp only [most_common]
      rw [filter_insertDesc]
      by_cases hx : x.2 = n <;> simp [List.filter_cons, hx, ih]

theorem distTotal_insertDesc (x : String × ℕ) (l : List (String × ℕ)) :
    distTotal (insertDesc x l) = x.2 + distTotal l := by
  induction l with
  | nil => simp [insertDesc, distTotal]
  | cons y ys ih =>
      simp only [insertDesc]
      by_cases hc : y.2 ≤ x.2
      · rw [if_pos hc]
        simp [distTotal]
      · rw [if_neg hc]
        simp only [distTotal, List.map_cons, List.sum_cons] at ih ⊢
        omega

theorem distTotal_most_common (l : List (String × ℕ)) :
    distTotal (most_common l) = distTotal l := by
  induction l with
  | nil => rfl
  | cons x xs ih =>
      simp only [most_common]
      rw [distTotal_insertDesc, ih]
      simp [distTotal]

theorem distTotal_foldl_bump_map {α : Type} (f : α → String) (ls : List α) :
    ∀ acc : List (String × ℕ),
      distTotal (ls.foldl (fun d a => bump d (f a)) acc) = distTotal acc + ls.length := by
  induction ls with
  | nil => intro acc; simp
  | cons a as ih =>
      intro acc
      simp only [List.foldl_cons, List.length_cons]
      rw [ih, distTotal_bump]
      omega

theorem distTotal_distribution (sals : List ℚ) :
    distTotal (get_salary_distribution sals) = sals.length := by
  have h := distTotal_foldl_bump_map bucketLabel sals (bucketLabels.map (fun b => (b, 0)))
  simpa [get_salary_distribution, distTotal, bucketLabels] using h

/-! ### Helper lemmas: filterMap lengths -/

theorem length_filterMap_eq_filter {α β : Type} (f : α → Option β) :
    ∀ l : List α,
      (l.filterMap f).length = (l.filter (fun a => (f a).isSome)).length := by
  intro l
  induction l with
  | nil => rfl
  | cons a as ih =>
      cases hf : f a <;>
        simp [List.filterMap_cons, List.filter_cons, hf, ih]

/-! ### Helper lemmas: currency conversion at literal codes -/

theorem convert_rur (f t : Option ℚ) : convert "RUR" f t = (f, t) := by
  unfold convert
  rw [if_neg (by decide), if_neg (by decide)]

theorem convert_usd (f t : Option ℚ) :
    convert "USD" f t = (convBound 90 f, convBound 90 t) := by
  unfold convert
  rw [if_pos rfl]

/-! ### Claim theorems -/

/-- Claim C1: for every listing carrying a salary object, the converted
range collapses to exactly one representative value — the average of the
two bounds when both are present, otherwise the single present bound — and
a listing with neither bound contributes no data point to the overall
sample or to any per-tier sample (it is not counted as zero). -/
theorem collapse_rule :
    (∀ f t : ℚ, 0 < f → 0 < t →
        collapse (some f) (some t) = some ((f + t) / 2))
  ∧ (∀ f : ℚ, 0 < f → collapse (some f) none = some f)
  ∧ (∀ t : ℚ, 0 < t → collapse none (some t) = some t)
  ∧ collapse none none = none
  ∧ (∀ (v : Listing) (s : Salary), v.salary = some s →
      s.from_val = none → s.to_val = none →
      ∀ pre post : List Listing,
        salariesOf (pre ++ v :: post) = salariesOf (pre ++ post)
      ∧ ∀ tier, tierSample (pre ++ v :: post) tier = tierSample (pre ++ post) tier) := by
  refine ⟨?_, ?_, ?_, rfl, ?_⟩
  · intro f t hf ht
    simp [collapse, truthy, hf.ne', ht.ne']
  · intro f hf
    simp [collapse, truthy, hf.ne']
  · intro t ht
    simp [collapse, truthy, ht.ne']
  · intro v s hv hf ht pre post
    have hcb : convertedBounds s = (none, none) := by
      unfold convertedBounds convert
      split_ifs <;> simp [convBound, hf, ht]
    have hrepr : reprOfSalary s = none := by
      simp [reprOfSalary, hcb, collapse, truthy]
    constructor
    · simp [salariesOf, List.filterMap_append, List.filterMap_cons, hv, hrepr]
    · intro tier
      by_cases hm : tierLabelSalary v.experience = tier
      · simp [tierSample, List.filter_append, List.filter_cons, hm,
              List.filterMap_append, List.filterMap_cons, hv, hrepr]
      · simp [tierSample, List.filter_append, List.filter_cons, hm,
              List.filterMap_append]

/-- Witness for C1 at concrete inputs: a 100000–200000 range collapses to
its average, and a listing with a salary object but neither bound leaves
the overall sample unchanged. -/
theorem collapse_rule_witness :
    collapse (some (100000 : ℚ)) (some 200000) = some 150000
  ∧ salariesOf [vNoBounds] = salariesOf [] := by
  constructor
  · have h := collapse_rule.1 100000 200000 (by norm_num) (by norm_num)
    rw [h]
    norm_num
  · have h := (collapse_rule.2.2.2.2 vNoBounds { currency := some "RUR" }
      rfl rfl rfl [] []).1
    simpa using h

/-- Claim C2: whenever `analyze_salaries` produces a statistics record for
a non-empty input, the histogram bucket counts sum exactly to `count`, and
`count` is at most the number of input listings. -/
theorem histogram_total_and_count (vs : List Listing) (st : SalaryStats)
    (hvs : vs ≠ []) (h : analyze_salaries vs = some st) :
    distTotal st.distribution = st.count ∧ st.count ≤ vs.length := by
  unfold analyze_salaries at h
  split at h
  · exact Option.noConfusion h
  · obtain rfl := Option.some.inj h
    exact ⟨distTotal_distribution (salariesOf vs), List.length_filterMap_le _ _⟩

/-- Witness for C2 at a one-listing input with a stated salary. -/
theorem histogram_total_and_count_witness :
    distTotal ((analyze_salaries [vRur1000]).getD dummyStats).distribution
      = ((analyze_salaries [vRur1000]).getD dummyStats).count
  ∧ ((analyze_salaries [vRur1000]).getD dummyStats).count ≤ [vRur1000].length :=
  histogram_total_and_count [vRur1000] _ (List.cons_ne_nil _ _) rfl

/-- Claim C3: every representative value falls into exactly one histogram
bucket — the first of the ascending edges 100000..400000 it is strictly
below, else the open top bucket; a baseline 100000–200000 range yields
representative 150000 and lands in the bucket with lower edge 150000, and
the boundary values 99999 / 100000 / 150000 land per the
strictly-less-than rule. -/
theorem bucket_assignment :
    (∀ s : ℚ, bucketLabel s = specBucket s ∧ bucketLabel s ∈ bucketLabels)
  ∧ vRange.salary.bind reprOfSalary = some 150000
  ∧ bucketLabel 99999 = "до 100к"
  ∧ bucketLabel 100000 = "100-150к"
  ∧ bucketLabel 150000 = "150-200к"
  ∧ get_salary_distribution (salariesOf [vRange]) =
      [("до 100к", 0), ("100-150к", 0), ("150-200к", 1), ("200-250к", 0),
       ("250-300к", 0), ("300-400к", 0), ("400к+", 0)] := by
  have hs : salariesOf [vRange] = [150000] := by
    norm_num [salariesOf, vRange, List.filterMap_cons, List.filterMap_nil,
      Option.bind, reprOfSalary, convertedBounds, Option.getD_some,
      convert_rur, collapse, truthy]
  refine ⟨?_, ?_, ?_, ?_, ?_, ?_⟩
  · intro s
    constructor
    · unfold bucketLabel specBucket bucketEdges
      split_ifs with h1 h2 h3 h4 h5 h6 <;> simp [List.find?, *]
    · unfold bucketLabel bucketLabels
      split_ifs <;> simp
  · norm_num [vRange, Option.bind, reprOfSalary, convertedBounds,
      Option.getD_some, convert_rur, collapse, truthy]
  · norm_num [bucketLabel]
  · norm_num [bucketLabel]
  · norm_num [bucketLabel]
  · rw [get_salary_distribution, hs]
    simp only [bucketLabels, List.map_cons, List.map_nil, List.foldl_cons,
      List.foldl_nil]
    norm_num [bucketLabel, bump]
    all_goals decide

/-- Claim C4 counterexample: a listing whose employer field is entirely
absent is NOT omitted from the employer counts — the code counts it under
an invented "Не указано" entry, so the employer counts sum to 1 even
though zero listings carry a resolvable employer. -/
theorem companies_absent_cex :
    vBlank.employer = EmployerData.absent
  ∧ (analyze_companies [vBlank]).top_20 = [("Не указано", 1)]
  ∧ distTotal (companiesCounter [vBlank]) = 1 :=
  ⟨rfl, rfl, rfl⟩

/-- Claim C4 as amended: for the employment and schedule categories only
listings with a resolvable (present, truthy) value are counted — a listing
whose field is absent is omitted and no entry is invented for it, so those
counts sum to the number of listings carrying a resolvable value; the
employer category instead counts every listing, labelling absent employers
with the explicit "Не указано" entry, so its counts sum to the total
number of listings. -/
theorem category_counts_amended (vs : List Listing) :
    distTotal (analyze_employment vs) =
      (vs.filter (fun v => countedEmployment v.employment)).length
  ∧ distTotal (analyze_schedule vs) =
      (vs.filter (fun v => countedSchedule v.schedule)).length
  ∧ analyze_employment [vBlank] = []
  ∧ analyze_schedule [vBlank] = []
  ∧ distTotal (companiesCounter vs) = vs.length := by
  refine ⟨?_, ?_, rfl, rfl, ?_⟩
  · exact (distTotal_most_common _).trans
      ((distTotal_counterOf _).trans (length_filterMap_eq_filter _ _))
  · exact (distTotal_most_common _).trans
      ((distTotal_counterOf _).trans (length_filterMap_eq_filter _ _))
  · rw [show companiesCounter vs
        = counterOf (vs.map (fun v => companyLabel v.employer)) from rfl,
      distTotal_counterOf, List.length_map]

/-- Claim C5 (code bug): the skill counts are NOT listing-level presence
counts for every vocabulary entry — "redis" (like "mongodb" and
"postgresql") appears twice in `tech_skills`, so one listing mentioning
"redis" once is counted twice; the claimed behaviour does hold for
unduplicated entries such as "python". -/
theorem skills_duplicate_counting :
    skillCounter [vRedis] = [("REDIS", 2)]
  ∧ (extract_skills [vRedis]).top_20 = [("REDIS", 2)]
  ∧ (extract_skills [vRedis]).total_found = 1
  ∧ skillCounter [vPython, vPython] = [("PYTHON", 2)]
  ∧ tech_skills.count "redis" = 2 :=
  ⟨by decide, by decide, by decide, by decide, by decide⟩

/-- Claim C6 counterexample: in the experience category counts an unknown
bare-string code does NOT resolve to the "unspecified" tier — it passes
through as its own label. -/
theorem experience_unknown_cex :
    analyze_experience [vWeird] = [("weird", 1)]
  ∧ ("weird" : String) ≠ "Не указано" :=
  ⟨rfl, by decide⟩

/-- Claim C6 as amended: experience resolves through the fixed
code-to-tier table, accepting an object with an id field or a bare string;
an unknown or absent code resolves to the "unspecified" tier in the
per-tier salary grouping, while in the experience category counts an
absent code resolves to "unspecified" but an unknown code passes through
as its own label. -/
theorem experience_resolution :
    (∀ s : String, s ≠ "" → exp_map s = none →
        tierLabelSalary (.str s) = "Не указано" ∧ tierLabelCategory (.str s) = s)
  ∧ (∀ i : String, exp_map i = none →
        tierLabelSalary (.obj (some i)) = "Не указано")
  ∧ tierLabelSalary .absent = "Не указано"
  ∧ tierLabelCategory .absent = "Не указано"
  ∧ (∀ code tier, exp_map code = some tier →
        tierLabelSalary (.str code) = tier
      ∧ tierLabelCategory (.str code) = tier
      ∧ tierLabelSalary (.obj (some code)) = tier
      ∧ tierLabelCategory (.obj (some code)) = tier) := by
  refine ⟨?_, ?_, by decide, by decide, ?_⟩
  · intro s hs hmap
    constructor
    · simp [tierLabelSalary, expId, hs, hmap]
    · simp [tierLabelCategory, expId, hs, hmap]
  · intro i hmap
    simp [tierLabelSalary, expId, hmap]
  · intro code tier h
    unfold exp_map at h
    split_ifs at h with h1 h2 h3 h4
    · subst h1; injection h with h'; subst h'
      exact ⟨by decide, by decide, by decide, by decide⟩
    · subst h2; injection h with h'; subst h'
      exact ⟨by decide, by decide, by decide, by decide⟩
    · subst h3; injection h with h'; subst h'
      exact ⟨by decide, by decide, by decide, by decide⟩
    · subst h4; injection h with h'; subst h'
      exact ⟨by decide, by decide, by decide, by decide⟩

/-- Witness for C6 (amended) at concrete codes. -/
theorem experience_resolution_witness :
    tierLabelSalary (ExpData.str "weird") = "Не указано"
  ∧ tierLabelSalary (ExpData.str "noExperience") = "Без опыта" :=
  ⟨(experience_resolution.1 "weird" (by decide) (by decide)).1,
   (experience_resolution.2.2.2.2 "noExperience" "Без опыта" (by decide)).1⟩

/-- Claim C7: a non-zero salary bound in USD is multiplied by 90 and in
EUR by 100 before entering any aggregate, bounds in the baseline or any
unrecognized currency pass through unconverted, and switching a
`from=1000` listing's currency code from RUR to USD (amounts fixed)
changes the aggregate min from 1000 to 90000. -/
theorem currency_conversion :
    (∀ x : ℚ, x ≠ 0 →
        convBound 90 (some x) = some (x * 90)
      ∧ convBound 100 (some x) = some (x * 100))
  ∧ (∀ f t, convert "USD" f t = (convBound 90 f, convBound 90 t))
  ∧ (∀ f t, convert "EUR" f t = (convBound 100 f, convBound 100 t))
  ∧ (∀ c f t, c ≠ "USD" → c ≠ "EUR" → convert c f t = (f, t))
  ∧ (analyze_salaries [vUsd1000]).map (fun st => st.min) = some 90000
  ∧ (analyze_salaries [vRur1000]).map (fun st => st.min) = some 1000
  ∧ (analyze_salaries [vUsd1000]).map (fun st => st.min) ≠
      (analyze_salaries [vRur1000]).map (fun st => st.min) := by
  have husd : salariesOf [vUsd1000] = [90000] := by
    norm_num [salariesOf, vUsd1000, List.filterMap_cons, List.filterMap_nil,
      Option.bind, reprOfSalary, convertedBounds, Option.getD_some,
      convert_usd, convBound, collapse, truthy]
  have hrur : salariesOf [vRur1000] = [1000] := by
    norm_num [salariesOf, vRur1000, List.filterMap_cons, List.filterMap_nil,
      Option.bind, reprOfSalary, convertedBounds, Option.getD_some,
      convert_rur, collapse, truthy]
  have h5 : (analyze_salaries [vUsd1000]).map (fun st => st.min) = some 90000 := by
    rw [analyze_salaries, husd]
    norm_num [listMin, truncQ]
  have h6 : (analyze_salaries [vRur1000]).map (fun st => st.min) = some 1000 := by
    rw [analyze_salaries, hrur]
    norm_num [listMin, truncQ]
  refine ⟨?_, fun f t => rfl, fun f t => rfl, ?_, h5, h6, ?_⟩
  · intro x hx
    constructor <;> simp [convBound, hx]
  · intro c f t h1 h2
    unfold convert
    rw [if_neg h1, if_neg h2]
  · rw [h5, h6]
    decide

/-- Witness for C7 at concrete inputs. -/
theorem currency_conversion_witness :
    convBound 90 (some (1000 : ℚ)) = some (1000 * 90)
  ∧ convert "KZT" (some (5 : ℚ)) none = (some 5, none) :=
  ⟨(currency_conversion.1 1000 (by norm_num)).1,
   currency_conversion.2.2.2.1 "KZT" _ _ (by decide) (by decide)⟩

/-- Claim C8: every ranked category output is ordered by descending count,
entries with equal counts appear in the order their labels were first
encountered across the input sequence (the Counter's keys are in
first-seen order and the sort is stable: filtering any fixed count value
returns the entries in their pre-sort, first-seen order), and the capped
lists are prefixes of the full ranking. -/
theorem ranking_stable (vs : List Listing) :
    (analyze_experience vs).Pairwise (fun a b => b.2 ≤ a.2)
  ∧ (∀ n, (analyze_experience vs).filter (fun e => e.2 == n) =
        (expCounter vs).filter (fun e => e.2 == n))
  ∧ (expCounter vs).map Prod.fst =
      firstSeen (vs.map (fun v => tierLabelCategory v.experience))
  ∧ (analyze_employment vs).Pairwise (fun a b => b.2 ≤ a.2)
  ∧ (∀ n, (analyze_employment vs).filter (fun e => e.2 == n) =
        (empCounter vs).filter (fun e => e.2 == n))
  ∧ (empCounter vs).map Prod.fst =
      firstSeen (vs.filterMap (fun v => empLabel v.employment))
  ∧ (analyze_schedule vs).Pairwise (fun a b => b.2 ≤ a.2)
  ∧ (∀ n, (analyze_schedule vs).filter (fun e => e.2 == n) =
        (schedCounter vs).filter (fun e => e.2 == n))
  ∧ (schedCounter vs).map Prod.fst =
      firstSeen (vs.filterMap (fun v => schedLabel v.schedule))
  ∧ (most_common (companiesCounter vs)).Pairwise (fun a b => b.2 ≤ a.2)
  ∧ (∀ n, (most_common (companiesCounter vs)).filter (fun e => e.2 == n) =
        (companiesCounter vs).filter (fun e => e.2 == n))
  ∧ (companiesCounter vs).map Prod.fst =
      firstSeen (vs.map (fun v => companyLabel v.employer))
  ∧ (analyze_companies vs).top_20 = (most_common (companiesCounter vs)).take 20
  ∧ (extract_skills vs).top_20 = (most_common (skillCounter vs)).take 20
  ∧ (most_common (skillCounter vs)).Pairwise (fun a b => b.2 ≤ a.2)
  ∧ (∀ n, (most_common (skillCounter vs)).filter (fun e => e.2 == n) =
        (skillCounter vs).filter (fun e => e.2 == n)) :=
  ⟨pairwise_most_common _, fun n => filter_most_common _ n, counterOf_keys _,
   pairwise_most_common _, fun n => filter_most_common _ n, counterOf_keys _,
   pairwise_most_common _, fun n => filter_most_common _ n, counterOf_keys _,
   pairwise_most_common _, fun n => filter_most_common _ n, counterOf_keys _,
   rfl, rfl, pairwise_most_common _, fun n => filter_most_common _ n⟩

/-- Claim C9: for the empty input the analysis returns the explicit error
summary and for every non-empty input it returns the assembled statistics
— the emptiness check is the only validation at that layer. -/
theorem empty_input_handling :
    analyze_vacancies [] = AnalysisResult.error "Вакансии не найдены"
  ∧ ∀ vs : List Listing, vs ≠ [] →
      analyze_vacancies vs = AnalysisResult.ok (mkStats vs) := by
  constructor
  · rfl
  · intro vs h
    have h' : vs.isEmpty = false := by
      cases vs with
      | nil => exact absurd rfl h
      | cons a as => rfl
    simp [analyze_vacancies, h']

/-- Witness for C9 at a one-listing input. -/
theorem empty_input_handling_witness :
    analyze_vacancies [vBlank] = AnalysisResult.ok (mkStats [vBlank]) :=
  empty_input_handling.2 [vBlank] (List.cons_ne_nil _ _)

/-- Claim C10: a salary bound equal to 0 is treated as absent throughout
the salary analysis — a zero bound never enters the from/to mean samples,
a salary whose only stated bound is 0 contributes no representative value,
and in a range with one zero bound the representative value is the other
bound, not the average. -/
theorem zero_bound_absent :
    (∀ (c : Option String) (t : Option ℚ),
        fromContribution { from_val := some 0, to_val := t, currency := c } = none)
  ∧ (∀ (c : Option String) (f : Option ℚ),
        toContribution { from_val := f, to_val := some 0, currency := c } = none)
  ∧ (∀ c : Option String,
        reprOfSalary { from_val := some 0, to_val := none, currency := c } = none
      ∧ reprOfSalary { from_val := none, to_val := some 0, currency := c } = none
      ∧ reprOfSalary { from_val := some 0, to_val := some 0, currency := c } = none)
  ∧ (∀ x : ℚ, x ≠ 0 →
        reprOfSalary { from_val := some 0, to_val := some x,
                       currency := some "RUR" } = some x
      ∧ reprOfSalary { from_val := some x, to_val := some 0,
                       currency := some "RUR" } = some x) := by
  refine ⟨?_, ?_, ?_, ?_⟩
  · intro c t
    have h1 : (convertedBounds { from_val := some 0, to_val := t, currency := c }).1 = none
        ∨ (convertedBounds { from_val := some 0, to_val := t, currency := c }).1 = some 0 := by
      unfold convertedBounds convert
      split_ifs <;> simp [convBound]
    unfold fromContribution
    rcases h1 with h | h <;> rw [h] <;> simp [truthy]
  · intro c f
    have h1 : (convertedBounds { from_val := f, to_val := some 0, currency := c }).2 = none
        ∨ (convertedBounds { from_val := f, to_val := some 0, currency := c }).2 = some 0 := by
      unfold convertedBounds convert
      split_ifs <;> simp [convBound]
    unfold toContribution
    rcases h1 with h | h <;> rw [h] <;> simp [truthy]
  · intro c
    refine ⟨?_, ?_, ?_⟩ <;>
      · unfold reprOfSalary convertedBounds convert
        split_ifs <;> simp [convBound, collapse, truthy]
  · intro x hx
    constructor <;>
      simp [reprOfSalary, convertedBounds, convert, collapse, truthy, convBound, hx]

/-- Witness for C10: a 0–200000 range contributes 200000, not 100000. -/
theorem zero_bound_absent_witness :
    reprOfSalary { from_val := some 0, to_val := some 200000,
                   currency := some "RUR" } = some 200000 :=
  (zero_bound_absent.2.2.2 200000 (by norm_num)).1

end HHAnalyzer
